import Mathlib

/-!
Verification of the proxy-script capability-confinement runtime.

This file gives a shallow embedding of the parts of the repository
relevant to the verified properties:

* `src/SourceMap.js` — VLQ segment decoding (`parseSegment`) and the
  delta-accumulating sourcemap constructor.
* `src/Runtime.js` — the current `Execution`-based runtime
  (`Execution.maybeWrap`, the proxy handler traps, `Runtime.prepare`)
  and the older `Runtime`-based iteration that appears after it in the
  same file (`Runtime2.maybeWrap`, its proxy handler, its `run` with the
  eager externals check).
* the `part_001` iteration's `run`, which replaces `whitelist.add` with
  a throwing function.

JavaScript values are embedded as follows: objects and functions are
identified by numeric ids; primitives are carried verbatim.  Machine
arithmetic in the VLQ decoder follows JavaScript semantics (`<<` on
32-bit signed integers, `>>>` on 32-bit unsigned integers) with
explicit reductions modulo 2^32.  Exceptions are modelled with
`Except`.
-/

/-- A thrown JavaScript exception: either a `Runtime.Error` (the
distinguished policy-violation type) or a plain `Error`. -/
inductive JSException where
  | runtimeError (message : String)
  | error (message : String)
deriving DecidableEq

/-! ## JavaScript 32-bit integer operations -/

/-- JavaScript ToUint32: reduce an integer into `[0, 2^32)`. -/
def toUint32 (n : Int) : Int := n % (4294967296 : Int)

/-- JavaScript ToInt32: reduce an integer into `[-2^31, 2^31)`. -/
def toInt32 (n : Int) : Int :=
  if n % (4294967296 : Int) < 2147483648 then n % 4294967296
  else n % 4294967296 - 4294967296

/-- JavaScript `a << b`: ToInt32 both sides, shift by `b mod 32`,
wrap the result to int32. -/
def jsShl (a b : Int) : Int :=
  toInt32 (toInt32 a * 2 ^ ((toUint32 b).toNat % 32))

/-- JavaScript `a & b` (bitwise AND of the 32-bit patterns,
reinterpreted as int32). -/
def jsAnd (a b : Int) : Int :=
  toInt32 (((toUint32 a).toNat &&& (toUint32 b).toNat : Nat) : Int)

/-- JavaScript `a >>> b`: unsigned 32-bit right shift. -/
def jsShrU (a b : Int) : Int :=
  (((toUint32 a).toNat >>> ((toUint32 b).toNat % 32) : Nat) : Int)

/-! ## SourceMap.js — base-64 VLQ decoding (`parseSegment`) -/

/-- The base-64 digit alphabet from which `BASE_64 : Map<char, index>`
is built in SourceMap.js. -/
def base64Chars : List Char :=
  ['A', 'B', 'C', 'D', 'E', 'F', 'G', 'H', 'I', 'J', 'K', 'L', 'M',
   'N', 'O', 'P', 'Q', 'R', 'S', 'T', 'U', 'V', 'W', 'X', 'Y', 'Z',
   'a', 'b', 'c', 'd', 'e', 'f', 'g', 'h', 'i', 'j', 'k', 'l', 'm',
   'n', 'o', 'p', 'q', 'r', 's', 't', 'u', 'v', 'w', 'x', 'y', 'z',
   '0', '1', '2', '3', '4', '5', '6', '7', '8', '9', '+', '/']

/-- `BASE_64.get(c)`: the index of `c` in the digit alphabet. -/
def base64Get (c : Char) : Option Nat :=
  base64Chars.findIdx? (fun x => x == c)

/-- The loop body of `parseSegment`, threading the `nBits`, `value`
and `fields` variables. -/
def parseSegmentLoop (cs : List Char) (nBits : Nat) (value : Int)
    (fields : List Int) : Except JSException (List Int) :=
  match cs with
  | [] => .ok fields
  | c :: rest =>
    match base64Get c with
    | none => .error (.error "invalid base64")
    | some data =>
      let value := value + jsShl ((data &&& 0x1f : Nat) : Int) ((nBits : Nat) : Int)
      let nBits := nBits + 5
      if data &&& 0x20 == 0 then
        let sign : Int := if jsAnd value 1 == 1 then -1 else 1
        parseSegmentLoop rest 0 0 (fields ++ [sign * jsShrU value 1])
      else
        parseSegmentLoop rest nBits value fields

/-- `parseSegment` from SourceMap.js: decode a comma-free mapping
segment into its list of signed VLQ fields. -/
def parseSegment (segment : List Char) : Except JSException (List Int) :=
  parseSegmentLoop segment 0 0 []

/-! ### The spec-side VLQ encoder

Modelled from the spec: the repository contains no encoder, so the
encoding scheme is taken from the specification text of the Location
Mapper — the low bit of the accumulated value is the sign, the
remaining bits the magnitude, emitted five bits at a time in base-64
digits whose 0x20 bit is the continuation flag. -/

/-- The unsigned value that encodes the signed integer `n`:
magnitude shifted left one, sign in the low bit. -/
def vlqOf (n : Int) : Nat :=
  2 * n.natAbs + (if n < 0 then 1 else 0)

/-- Emit the 5-bit digit values of `v`, least significant first,
setting the 0x20 continuation bit on all but the last digit. -/
def encodeVlqDigits (v : Nat) : List Nat :=
  if h : v < 32 then [v]
  else (v % 32 + 32) :: encodeVlqDigits (v / 32)
termination_by v
decreasing_by exact Nat.div_lt_self (by omega) (by omega)

/-- The base-64 character of a digit value. -/
def digitChar (d : Nat) : Char := base64Chars.getD d 'A'

/-- Encode one signed integer as a base-64 VLQ, per the spec scheme. -/
def specEncodeVlq (n : Int) : List Char :=
  (encodeVlqDigits (vlqOf n)).map digitChar

/-- Encode a field sequence as a mapping segment, per the spec scheme. -/
def specEncodeSegment (ns : List Int) : List Char :=
  (ns.map specEncodeVlq).flatten

/-- The signed value denoted by an accumulated (unsigned) VLQ value:
low bit is the sign, remaining bits the magnitude. -/
def vlqDecodeNat (w : Nat) : Int :=
  (if w % 2 == 1 then -1 else 1) * ((w / 2 : Nat) : Int)

/-! ### Supporting lemmas for the VLQ round trip -/

theorem base64Get_digitChar : ∀ d : Fin 64, base64Get (digitChar d.val) = some d.val := by
  decide

theorem and31_lt : ∀ x : Fin 32, x.val &&& 31 = x.val := by decide

theorem and32_lt : ∀ x : Fin 32, x.val &&& 32 = 0 := by decide

theorem and31_cont : ∀ x : Fin 32, (x.val + 32) &&& 31 = x.val := by decide

theorem and32_cont : ∀ x : Fin 32, (x.val + 32) &&& 32 = 32 := by decide

theorem toUint32_ofNat (w : Nat) (h : w < 4294967296) :
    toUint32 ((w : Nat) : Int) = ((w : Nat) : Int) := by
  unfold toUint32
  omega

theorem toInt32_ofNat (w : Nat) (h : w < 2147483648) :
    toInt32 ((w : Nat) : Int) = ((w : Nat) : Int) := by
  unfold toInt32
  split <;> omega

theorem jsShl_small (a k : Nat) (hk : k < 32) (h : a * 2 ^ k < 2147483648) :
    jsShl ((a : Nat) : Int) ((k : Nat) : Int) = ((a * 2 ^ k : Nat) : Int) := by
  have hpow : 0 < 2 ^ k := Nat.pos_pow_of_pos k (by omega)
  have ha : a < 2147483648 := by
    have : a ≤ a * 2 ^ k := Nat.le_mul_of_pos_right a hpow
    omega
  unfold jsShl
  rw [toUint32_ofNat k (by omega), toInt32_ofNat a ha]
  have hkk : ((k : Int)).toNat % 32 = k := by
    simp [Nat.mod_eq_of_lt hk]
  rw [hkk]
  have hcast : ((a : Int)) * 2 ^ k = ((a * 2 ^ k : Nat) : Int) := by push_cast; ring
  rw [hcast, toInt32_ofNat _ h]

theorem jsAnd_one (w : Nat) (h : w < 4294967296) :
    jsAnd ((w : Nat) : Int) 1 = ((w % 2 : Nat) : Int) := by
  unfold jsAnd
  rw [toUint32_ofNat w h]
  have h1 : toUint32 1 = ((1 : Nat) : Int) := by unfold toUint32; omega
  rw [h1]
  simp only [Int.toNat_natCast, Nat.and_one_is_mod]
  exact toInt32_ofNat _ (by omega)

theorem jsShrU_one (w : Nat) (h : w < 4294967296) :
    jsShrU ((w : Nat) : Int) 1 = ((w / 2 : Nat) : Int) := by
  unfold jsShrU
  rw [toUint32_ofNat w h]
  have h1 : toUint32 1 = ((1 : Nat) : Int) := by unfold toUint32; omega
  rw [h1]
  simp [Nat.shiftRight_eq_div_pow]

theorem vlqFinish (w : Nat) (h : w < 2147483648) :
    (if jsAnd ((w : Nat) : Int) 1 == 1 then (-1 : Int) else 1) * jsShrU ((w : Nat) : Int) 1
      = vlqDecodeNat w := by
  rw [jsAnd_one w (by omega), jsShrU_one w (by omega)]
  unfold vlqDecodeNat
  rcases Nat.mod_two_eq_zero_or_one w with h2 | h2 <;> simp [h2]

theorem vlqDecodeNat_vlqOf (n : Int) : vlqDecodeNat (vlqOf n) = n := by
  unfold vlqDecodeNat vlqOf
  rcases le_or_lt 0 n with hn | hn
  · have hnn : ¬ n < 0 := by omega
    simp only [hnn, if_false, Nat.add_zero]
    have h2 : 2 * n.natAbs % 2 = 0 := by omega
    have h3 : 2 * n.natAbs / 2 = n.natAbs := by omega
    rw [h2, h3]
    simp
    omega
  · simp only [hn, if_true]
    have h2 : (2 * n.natAbs + 1) % 2 = 1 := by omega
    have h3 : (2 * n.natAbs + 1) / 2 = n.natAbs := by omega
    rw [h2, h3]
    simp
    rw [abs_of_neg hn]
    omega

theorem parseLoop_encode (v : Nat) :
    ∀ (nBits value : Nat) (fields : List Int) (rest : List Char),
      value + v * 2 ^ nBits < 2147483648 → nBits ≤ 30 →
      parseSegmentLoop ((encodeVlqDigits v).map digitChar ++ rest) nBits
          ((value : Nat) : Int) fields
        = parseSegmentLoop rest 0 0 (fields ++ [vlqDecodeNat (value + v * 2 ^ nBits)]) := by
  induction v using Nat.strong_induction_on with
  | _ v ih =>
    intro nBits value fields rest hrange hbits
    rw [encodeVlqDigits]
    by_cases hv : v < 32
    · rw [dif_pos hv]
      simp only [List.map_cons, List.map_nil, List.singleton_append]
      simp only [parseSegmentLoop]
      rw [base64Get_digitChar ⟨v, by omega⟩]
      have ha31 : v &&& 0x1f = v := and31_lt ⟨v, hv⟩
      have ha32 : v &&& 0x20 = 0 := and32_lt ⟨v, hv⟩
      simp only [ha31, ha32]
      have hshl : jsShl ((v : Nat) : Int) ((nBits : Nat) : Int)
          = ((v * 2 ^ nBits : Nat) : Int) :=
        jsShl_small v nBits (by omega) (by omega)
      rw [hshl, ← Nat.cast_add]
      have hfin := vlqFinish (value + v * 2 ^ nBits) hrange
      simp only [hfin]
      simp
    · rw [dif_neg hv]
      simp only [List.map_cons, List.cons_append]
      simp only [parseSegmentLoop]
      rw [base64Get_digitChar ⟨v % 32 + 32, by omega⟩]
      have ha31 : (v % 32 + 32) &&& 0x1f = v % 32 := and31_cont ⟨v % 32, by omega⟩
      have ha32 : (v % 32 + 32) &&& 0x20 = 32 := and32_cont ⟨v % 32, by omega⟩
      simp only [ha31, ha32]
      have hmle : v % 32 * 2 ^ nBits ≤ v * 2 ^ nBits :=
        Nat.mul_le_mul_right _ (Nat.mod_le v 32)
      have hshl : jsShl ((v % 32 : Nat) : Int) ((nBits : Nat) : Int)
          = ((v % 32 * 2 ^ nBits : Nat) : Int) :=
        jsShl_small (v % 32) nBits (by omega) (by omega)
      rw [hshl, ← Nat.cast_add]
      have hbits5 : nBits + 5 ≤ 30 := by
        by_contra hcon
        have h31 : 31 ≤ nBits + 5 := by omega
        have hp : 2 ^ 31 ≤ 2 ^ (nBits + 5) := Nat.pow_le_pow_right (by omega) h31
        have hp5 : 2 ^ (nBits + 5) = 32 * 2 ^ nBits := by rw [pow_add]; ring
        have hv32 : 32 * 2 ^ nBits ≤ v * 2 ^ nBits :=
          Nat.mul_le_mul_right _ (by omega)
        have : (2147483648 : Nat) ≤ value + v * 2 ^ nBits := by
          calc (2147483648 : Nat) = 2 ^ 31 := by norm_num
            _ ≤ 2 ^ (nBits + 5) := hp
            _ = 32 * 2 ^ nBits := hp5
            _ ≤ v * 2 ^ nBits := hv32
            _ ≤ value + v * 2 ^ nBits := by omega
        omega
      have key : value + v % 32 * 2 ^ nBits + v / 32 * 2 ^ (nBits + 5)
          = value + v * 2 ^ nBits := by
        have h32 : v % 32 + 32 * (v / 32) = v := Nat.mod_add_div v 32
        calc value + v % 32 * 2 ^ nBits + v / 32 * 2 ^ (nBits + 5)
            = value + (v % 32 + 32 * (v / 32)) * 2 ^ nBits := by rw [pow_add]; ring
          _ = value + v * 2 ^ nBits := by rw [h32]
      have hih := ih (v / 32) (Nat.div_lt_self (by omega) (by omega))
        (nBits + 5) (value + v % 32 * 2 ^ nBits) fields rest
        (by rw [key]; exact hrange) hbits5
      rw [key] at hih
      simpa using hih

theorem parseSegmentLoop_encodeSegment (ns : List Int) :
    ∀ fields : List Int, (∀ n ∈ ns, vlqOf n < 2147483648) →
      parseSegmentLoop (specEncodeSegment ns) 0 0 fields = .ok (fields ++ ns) := by
  induction ns with
  | nil =>
    intro fields _
    simp [specEncodeSegment, parseSegmentLoop]
  | cons n ns ihs =>
    intro fields h
    have hn : vlqOf n < 2147483648 := h n (by simp)
    have hrest : ∀ m ∈ ns, vlqOf m < 2147483648 := fun m hm => h m (by simp [hm])
    simp only [specEncodeSegment, List.map_cons, List.flatten_cons]
    rw [show specEncodeVlq n = (encodeVlqDigits (vlqOf n)).map digitChar from rfl]
    have hrt := parseLoop_encode (vlqOf n) 0 0 fields
      ((ns.map specEncodeVlq).flatten) (by simpa using hn) (by omega)
    simp only [pow_zero, mul_one, Nat.zero_add, Nat.cast_zero] at hrt
    rw [hrt, vlqDecodeNat_vlqOf]
    have hih := ihs (fields ++ [n]) hrest
    simp only [specEncodeSegment] at hih
    rw [hih]
    simp

/-- Claim C8: decoding a base-64 VLQ mapping segment follows the stated
algorithm (`parseSegment` is its direct embedding), and for any sequence
of signed integers whose sign-and-magnitude VLQ values fit in 31 bits,
encoding per the spec scheme and then decoding with `parseSegment` is
the identity. -/
theorem parseSegment_vlq_roundtrip (ns : List Int)
    (h : ∀ n ∈ ns, vlqOf n < 2147483648) :
    parseSegment (specEncodeSegment ns) = .ok ns := by
  unfold parseSegment
  simpa using parseSegmentLoop_encodeSegment ns [] h

/-- Witness for C8 at a concrete field sequence. -/
theorem parseSegment_vlq_roundtrip_witness :
    parseSegment (specEncodeSegment [0, 1, -1, 16, -1000])
      = .ok [0, 1, -1, 16, -1000] :=
  parseSegment_vlq_roundtrip [0, 1, -1, 16, -1000] (by decide)

/-! ## SourceMap.js — the delta-accumulating constructor

The constructor splits `map.mappings` on semicolons into line groups
and each group on commas into segments, decodes each segment with
`parseSegment`, and accumulates the decoded fields into five
accumulators.  The model below reproduces that computation: the four
accumulators `sourcesIndex`, `sourceLine`, `sourceColumn` and
`namesIndex` are declared outside the group loop (they persist across
lines) while `startColumn` is re-declared as `null` for every group.
The constructor finally re-sorts each group by descending start column;
the sort only reorders the already-computed segment records, so the
model exposes the records in decode order. -/

/-- JavaScript `String.split` with a single-character separator
(`"".split(s)` is `[""]`, adjacent separators yield empty pieces). -/
def splitOnChar (sep : Char) : List Char → List (List Char)
  | [] => [[]]
  | c :: cs =>
    match splitOnChar sep cs with
    | [] => [[]]
    | g :: gs => if c == sep then [] :: g :: gs else (c :: g) :: gs

/-- A version-3 sourcemap as consumed by the SourceMap constructor. -/
structure RawMap where
  sources : List String
  names : List String
  mappings : List Char
deriving DecidableEq

/-- The four accumulators declared before the group loop. -/
structure AccState where
  sourcesIndex : Option Int
  sourceLine : Option Int
  sourceColumn : Option Int
  namesIndex : Option Int
deriving DecidableEq

/-- JavaScript `acc += delta` where `acc` starts as `null`
(`null` coerces to 0 the first time it is added to). -/
def addDelta (acc : Option Int) (d : Int) : Option Int :=
  some (acc.getD 0 + d)

/-- One decoded segment record as pushed by the constructor. -/
structure MapSegment where
  startColumn : Option Int
  source : Option String
  sourceLine : Option Int
  sourceColumn : Option Int
  name : Option String
deriving DecidableEq

/-- JavaScript `array[i]` where `i` is a number or `null`
(`array[null]` and out-of-range reads are `undefined`). -/
def jsIndex (l : List String) : Option Int → Option String
  | none => none
  | some i => if i < 0 then none else l.get? i.toNat

/-- The `switch (fields.length)` fall-through in the constructor: a
segment with `k ≤ 5` fields updates the first `k` accumulators (start
column first); a segment with more than five fields matches no case
and updates nothing. -/
def segmentStep (st : AccState) (col : Option Int) (fields : List Int) :
    AccState × Option Int :=
  match fields with
  | [] => (st, col)
  | [f0] => (st, addDelta col f0)
  | [f0, f1] =>
    ({ st with sourcesIndex := addDelta st.sourcesIndex f1 }, addDelta col f0)
  | [f0, f1, f2] =>
    ({ st with sourcesIndex := addDelta st.sourcesIndex f1,
               sourceLine := addDelta st.sourceLine f2 }, addDelta col f0)
  | [f0, f1, f2, f3] =>
    ({ st with sourcesIndex := addDelta st.sourcesIndex f1,
               sourceLine := addDelta st.sourceLine f2,
               sourceColumn := addDelta st.sourceColumn f3 }, addDelta col f0)
  | [f0, f1, f2, f3, f4] =>
    ({ st with sourcesIndex := addDelta st.sourcesIndex f1,
               sourceLine := addDelta st.sourceLine f2,
               sourceColumn := addDelta st.sourceColumn f3,
               namesIndex := addDelta st.namesIndex f4 }, addDelta col f0)
  | _ => (st, col)

/-- The record literal returned for each segment. -/
def mkSegment (m : RawMap) (st : AccState) (col : Option Int) : MapSegment :=
  { startColumn := col,
    source := jsIndex m.sources st.sourcesIndex,
    sourceLine := st.sourceLine,
    sourceColumn := st.sourceColumn,
    name := jsIndex m.names st.namesIndex }

/-- The segment loop of one line group, threading the persistent
accumulators and the per-group `startColumn`. -/
def decodeGroupLoop (m : RawMap) (st : AccState) (col : Option Int) :
    List (List Char) → Except JSException (List MapSegment × AccState)
  | [] => .ok ([], st)
  | seg :: rest =>
    match parseSegment seg with
    | .error e => .error e
    | .ok fields =>
      let next := segmentStep st col fields
      match decodeGroupLoop m next.1 next.2 rest with
      | .error e => .error e
      | .ok (out, stF) => .ok (mkSegment m next.1 next.2 :: out, stF)

/-- The line-group loop: `startColumn` starts as `null` in each group. -/
def decodeMappingsLoop (m : RawMap) (st : AccState) :
    List (List Char) → Except JSException (List (List MapSegment))
  | [] => .ok []
  | g :: gs =>
    match decodeGroupLoop m st none (splitOnChar ',' g) with
    | .error e => .error e
    | .ok (segs, st2) =>
      match decodeMappingsLoop m st2 gs with
      | .error e => .error e
      | .ok rest => .ok (segs :: rest)

/-- The groups computed by the SourceMap constructor (in decode order,
before the per-group descending sort). -/
def sourceMapGroups (m : RawMap) : Except JSException (List (List MapSegment)) :=
  decodeMappingsLoop m ⟨none, none, none, none⟩ (splitOnChar ';' m.mappings)

/-! ### The spec-side decoder for the accumulation discipline

Modelled from the spec: fields within one segment are cumulative deltas
relative to the same field's last value anywhere earlier in the table;
the starting column resets at the beginning of every generated line
while the other four accumulators persist across lines.  This decoder
threads a single five-field state through the whole table and resets
only its column at each line boundary. -/

/-- All five accumulators, threaded globally by the spec decoder. -/
structure SpecState where
  column : Option Int
  sourcesIndex : Option Int
  sourceLine : Option Int
  sourceColumn : Option Int
  namesIndex : Option Int
deriving DecidableEq

/-- The four persistent accumulators of a spec state. -/
def SpecState.toAcc (b : SpecState) : AccState :=
  ⟨b.sourcesIndex, b.sourceLine, b.sourceColumn, b.namesIndex⟩

/-- Spec accumulation: each field a segment carries is added, as a
delta, to that field's accumulator. -/
def specStep (b : SpecState) (fields : List Int) : SpecState :=
  let b := match fields.get? 0 with
    | some f => { b with column := addDelta b.column f }
    | none => b
  let b := match fields.get? 1 with
    | some f => { b with sourcesIndex := addDelta b.sourcesIndex f }
    | none => b
  let b := match fields.get? 2 with
    | some f => { b with sourceLine := addDelta b.sourceLine f }
    | none => b
  let b := match fields.get? 3 with
    | some f => { b with sourceColumn := addDelta b.sourceColumn f }
    | none => b
  match fields.get? 4 with
    | some f => { b with namesIndex := addDelta b.namesIndex f }
    | none => b

/-- The record the spec decoder emits after a segment. -/
def specSegOut (m : RawMap) (b : SpecState) : MapSegment :=
  { startColumn := b.column,
    source := jsIndex m.sources b.sourcesIndex,
    sourceLine := b.sourceLine,
    sourceColumn := b.sourceColumn,
    name := jsIndex m.names b.namesIndex }

/-- Spec segment loop within one line. -/
def specDecodeGroupLoop (m : RawMap) (b : SpecState) :
    List (List Char) → Except JSException (List MapSegment × SpecState)
  | [] => .ok ([], b)
  | seg :: rest =>
    match parseSegment seg with
    | .error e => .error e
    | .ok fields =>
      let b2 := specStep b fields
      match specDecodeGroupLoop m b2 rest with
      | .error e => .error e
      | .ok (out, bF) => .ok (specSegOut m b2 :: out, bF)

/-- Spec line loop: only the column accumulator resets per line. -/
def specDecodeMappingsLoop (m : RawMap) (b : SpecState) :
    List (List Char) → Except JSException (List (List MapSegment))
  | [] => .ok []
  | g :: gs =>
    match specDecodeGroupLoop m { b with column := none } (splitOnChar ',' g) with
    | .error e => .error e
    | .ok (segs, b2) =>
      match specDecodeMappingsLoop m b2 gs with
      | .error e => .error e
      | .ok rest => .ok (segs :: rest)

/-- The groups computed per the spec wording. -/
def specSourceMapGroups (m : RawMap) : Except JSException (List (List MapSegment)) :=
  specDecodeMappingsLoop m ⟨none, none, none, none, none⟩ (splitOnChar ';' m.mappings)

/-- A segment is well-formed when it decodes to at most five fields
(the sourcemap format allows 1, 2, 4 or 5). -/
def segLenOKb (seg : List Char) : Bool :=
  match parseSegment seg with
  | .ok fields => decide (fields.length ≤ 5)
  | .error _ => true

/-- All segments of a mapping table are well-formed. -/
def segFieldsOKb (m : RawMap) : Bool :=
  (splitOnChar ';' m.mappings).all fun g => (splitOnChar ',' g).all segLenOKb

instance {ε α : Type} [DecidableEq ε] [DecidableEq α] : DecidableEq (Except ε α) :=
  fun a b =>
    match a, b with
    | .error x, .error y =>
      if h : x = y then .isTrue (by rw [h])
      else .isFalse (by intro hh; injection hh; contradiction)
    | .ok x, .ok y =>
      if h : x = y then .isTrue (by rw [h])
      else .isFalse (by intro hh; injection hh; contradiction)
    | .error _, .ok _ => .isFalse (fun hh => Except.noConfusion hh)
    | .ok _, .error _ => .isFalse (fun hh => Except.noConfusion hh)

theorem step_corr (b : SpecState) (fields : List Int) (h : fields.length ≤ 5) :
    (specStep b fields).toAcc = (segmentStep b.toAcc b.column fields).1 ∧
    (specStep b fields).column = (segmentStep b.toAcc b.column fields).2 := by
  rcases fields with _ | ⟨f0, _ | ⟨f1, _ | ⟨f2, _ | ⟨f3, _ | ⟨f4, _ | ⟨f5, rest⟩⟩⟩⟩⟩⟩
  · constructor <;> rfl
  · constructor <;> rfl
  · constructor <;> rfl
  · constructor <;> rfl
  · constructor <;> rfl
  · constructor <;> rfl
  · simp at h

theorem mkSegment_toAcc (m : RawMap) (b : SpecState) :
    mkSegment m b.toAcc b.column = specSegOut m b := rfl

theorem group_corr (m : RawMap) (segs : List (List Char)) : ∀ (b : SpecState),
    segs.all segLenOKb = true →
    decodeGroupLoop m b.toAcc b.column segs
      = (specDecodeGroupLoop m b segs).map (fun p => (p.1, p.2.toAcc)) := by
  induction segs with
  | nil =>
    intro b _
    rfl
  | cons seg rest ihr =>
    intro b h
    simp only [List.all_cons, Bool.and_eq_true] at h
    obtain ⟨h1, h2⟩ := h
    simp only [decodeGroupLoop, specDecodeGroupLoop]
    cases hp : parseSegment seg with
    | error e => rfl
    | ok fields =>
      have hlen : fields.length ≤ 5 := by
        unfold segLenOKb at h1
        rw [hp] at h1
        simpa using h1
      obtain ⟨hA, hC⟩ := step_corr b fields hlen
      dsimp only
      rw [← hA, ← hC, ihr (specStep b fields) h2]
      cases hs : specDecodeGroupLoop m (specStep b fields) rest with
      | error e => rfl
      | ok p =>
        simp only [Except.map]
        rw [mkSegment_toAcc]

theorem mappings_corr (m : RawMap) (gs : List (List Char)) : ∀ (b : SpecState),
    gs.all (fun g => (splitOnChar ',' g).all segLenOKb) = true →
    decodeMappingsLoop m b.toAcc gs = specDecodeMappingsLoop m b gs := by
  induction gs with
  | nil =>
    intro b _
    rfl
  | cons g gs ihg =>
    intro b h
    simp only [List.all_cons, Bool.and_eq_true] at h
    obtain ⟨h1, h2⟩ := h
    simp only [decodeMappingsLoop, specDecodeMappingsLoop]
    have hb : ({ b with column := none } : SpecState).toAcc = b.toAcc := rfl
    have hg := group_corr m (splitOnChar ',' g) { b with column := none } h1
    rw [hb] at hg
    rw [hg]
    cases hs : specDecodeGroupLoop m { b with column := none } (splitOnChar ',' g) with
    | error e => rfl
    | ok p =>
      simp only [Except.map]
      rw [ihg p.2 h2]

/-- Claim C9: decoding a mapping table accumulates each segment field as
a delta relative to that field's most recent value anywhere earlier in
the table, with the starting column reset at every generated line and
the other four accumulators persisting across lines — on every table
whose segments carry at most five fields, the constructor
(`sourceMapGroups`) agrees with the spec-worded decoder
(`specSourceMapGroups`), which threads one global five-field state and
resets only the column per line. -/
theorem sourceMap_delta_accumulation (m : RawMap) (h : segFieldsOKb m = true) :
    sourceMapGroups m = specSourceMapGroups m := by
  unfold sourceMapGroups specSourceMapGroups
  have hb : (⟨none, none, none, none, none⟩ : SpecState).toAcc
      = (⟨none, none, none, none⟩ : AccState) := rfl
  rw [← hb]
  exact mappings_corr m (splitOnChar ';' m.mappings)
    ⟨none, none, none, none, none⟩ (by simpa [segFieldsOKb] using h)

/-- Witness for C9 at a concrete mapping table spanning several lines. -/
theorem sourceMap_delta_accumulation_witness :
    sourceMapGroups ⟨["a.js", "b.js"], ["x"], "AAAA,CAAC;;ACAA;GACMA".toList⟩
      = specSourceMapGroups ⟨["a.js", "b.js"], ["x"], "AAAA,CAAC;;ACAA;GACMA".toList⟩ :=
  sourceMap_delta_accumulation ⟨["a.js", "b.js"], ["x"], "AAAA,CAAC;;ACAA;GACMA".toList⟩
    (by decide)

/-! ## Runtime.js — values, worlds and execution state

Objects and functions are identified by numeric ids.  The process- and
runtime-level membership sets (`IMMUTABLE`, `BLACKLIST`, the runtime
whitelist, `typeof f === 'function'`) are predicates over ids, fixed
during a wrap call; the per-execution state carries the registered
user functions, the wrapper registry and the created proxies. -/

/-- A JavaScript value: a non-object primitive, or an object/function
identified by its id. -/
inductive JSVal where
  | undef
  | nullv
  | boolean (b : Bool)
  | number (n : Int)
  | string (s : String)
  | obj (id : Nat)
deriving DecidableEq

/-- Association-list lookup keyed by object id (WeakMap / heap model). -/
def alookup {α : Type} (l : List (Nat × α)) (k : Nat) : Option α :=
  (l.find? (fun kv => kv.1 == k)).map (fun kv => kv.2)

theorem alookup_cons {α : Type} (a : Nat) (b : α) (l : List (Nat × α)) (k : Nat) :
    alookup ((a, b) :: l) k = if a = k then some b else alookup l k := by
  by_cases h : a = k
  · simp [alookup, List.find?, h]
  · have hb : (a == k) = false := by rw [beq_eq_false_iff_ne]; exact h
    simp [alookup, List.find?, hb, h]

/-- The fixed sets consulted by the current runtime's wrap checkpoint. -/
structure World where
  immutable : Nat → Bool
  blacklist : Nat → Bool
  whitelist : Nat → Bool
  isFunction : Nat → Bool

/-- Per-`Execution` state: the `_functions` weak set, the
`_mapObjectToProxy` registry (objects and proxies both map to the
proxy), the target behind each created proxy (what the `UNWRAP`
sentinel read returns), and a fresh-id allocator for new proxies. -/
structure ExecState where
  functions : List Nat
  registry : List (Nat × Nat)
  proxyTarget : List (Nat × Nat)
  nextId : Nat
deriving DecidableEq

/-- `obj[UNWRAP] ?? obj`: a registered proxy answers the sentinel read
with its target; any other value yields itself. -/
def unwrapRead (s : ExecState) (o : Nat) : Nat :=
  match alookup s.proxyTarget o with
  | some t => t
  | none => o

/-- `Execution._maybeWrap` of the current runtime: primitives pass
through; the argument is unwrapped through the sentinel; blacklisted
values throw; a function neither registered nor whitelisted throws;
a registered value returns its existing proxy; a value outside the
reachability set passes through (unless `skipGlobalCheck`); otherwise
a fresh proxy is created and registered both directions. -/
def Execution.maybeWrap (w : World) (s : ExecState) (v : JSVal)
    (skipGlobalCheck : Bool) : Except JSException (JSVal × ExecState) :=
  match v with
  | .obj o0 =>
    let o := unwrapRead s o0
    if w.blacklist o then .error (.runtimeError "blacklist violation")
    else if w.isFunction o && !(s.functions.contains o) && !(w.whitelist o) then
      .error (.runtimeError "whitelist violation")
    else
      match alookup s.registry o with
      | some p => .ok (.obj p, s)
      | none =>
        if !skipGlobalCheck && !(w.immutable o) then .ok (.obj o, s)
        else
          let p := s.nextId
          .ok (.obj p,
            { s with
              registry := (o, p) :: (p, p) :: s.registry,
              proxyTarget := (p, o) :: s.proxyTarget,
              nextId := s.nextId + 1 })
  | prim => .ok (prim, s)

/-- The five mutating proxy trap kinds. -/
inductive MutTrap where
  | defineProperty
  | deleteProperty
  | preventExtensions
  | set
  | setPrototypeOf
deriving DecidableEq

/-- The violation message named after each mutating trap. -/
def violationMsg : MutTrap → String
  | .defineProperty => "defineProperty violation"
  | .deleteProperty => "deleteProperty violation"
  | .preventExtensions => "preventExtensions violation"
  | .set => "set violation"
  | .setPrototypeOf => "setPrototypeOf violation"

/-- The mutating traps of `Execution._handler` in the current runtime:
every one of them throws its named violation unconditionally, whatever
property is touched. -/
def Execution.handlerTrap (trap : MutTrap) (property : String) :
    Except JSException Unit :=
  match trap with
  | .defineProperty => .error (.runtimeError "defineProperty violation")
  | .deleteProperty => .error (.runtimeError "deleteProperty violation")
  | .preventExtensions => .error (.runtimeError "preventExtensions violation")
  | .set => .error (.runtimeError "set violation")
  | .setPrototypeOf => .error (.runtimeError "setPrototypeOf violation")

/-! ### The older Runtime-based iteration (second half of Runtime.js) -/

/-- The fixed sets of the older iteration; `allowed` is the `ALLOWED`
marker read, true exactly for the call-permitted proxies produced by
`Runtime.fn`. -/
structure World2 where
  immutable : Nat → Bool
  blacklist : Nat → Bool
  whitelist : Nat → Bool
  isFunction : Nat → Bool
  allowed : Nat → Bool

/-- Per-run state of the older iteration (its `mapObjectToProxy` is a
local of `run`). -/
structure RunState2 where
  registry : List (Nat × Nat)
  proxyTarget : List (Nat × Nat)
  nextId : Nat
deriving DecidableEq

/-- `obj[UNWRAP] ?? obj` in the older iteration. -/
def unwrapRead2 (s : RunState2) (o : Nat) : Nat :=
  match alookup s.proxyTarget o with
  | some t => t
  | none => o

/-- `Runtime._maybeWrap` of the older iteration: here the registry is
consulted before the unwrap and the blacklist/permission checks. -/
def Runtime2.maybeWrap (w : World2) (s : RunState2) (v : JSVal)
    (isImmutableProperty : Bool) : Except JSException (JSVal × RunState2) :=
  match v with
  | .obj o0 =>
    match alookup s.registry o0 with
    | some p => .ok (.obj p, s)
    | none =>
      let o := unwrapRead2 s o0
      if w.blacklist o then .error (.runtimeError "blacklist violation")
      else if w.isFunction o && !(w.allowed o) && !(w.whitelist o) then
        .error (.runtimeError "permission denied")
      else if !isImmutableProperty && !(w.immutable o) then .ok (.obj o, s)
      else
        let p := s.nextId
        .ok (.obj p,
          { s with
            registry := (o, p) :: (p, p) :: s.registry,
            proxyTarget := (p, o) :: s.proxyTarget,
            nextId := s.nextId + 1 })
  | prim => .ok (prim, s)

/-- The mutating traps of the proxy built by the older iteration's
`Runtime._maybeWrap`: `set` first checks whether the receiver is a
registered proxy — when it is not (an ordinary object that merely has
the proxy on its prototype chain) the write is delegated to
`Reflect.set` on that receiver and succeeds; every other mutating
trap, and `set` on the proxy itself, throws its named violation. -/
def Runtime2.handlerTrap (trap : MutTrap) (property : String)
    (receiverInRegistry : Bool) : Except JSException Unit :=
  match trap with
  | .set =>
    if !receiverInRegistry then .ok ()
    else .error (.runtimeError "set violation")
  | .defineProperty => .error (.runtimeError "defineProperty violation")
  | .deleteProperty => .error (.runtimeError "deleteProperty violation")
  | .preventExtensions => .error (.runtimeError "preventExtensions violation")
  | .setPrototypeOf => .error (.runtimeError "setPrototypeOf violation")

/-- Counterexample to claim C1 as stated: in the older iteration's
proxy handler, a property write whose receiver is not a registered
wrapper (an ordinary script object that merely has the wrapper on its
prototype chain) is delegated to `Reflect.set` and succeeds, so it is
not the case that every mutating trap invocation raises a violation. -/
theorem handlerTrap_set_succeeds_cex :
    Runtime2.handlerTrap MutTrap.set "x" false = .ok () := rfl

/-- Claim C1 (amended): every mutating operation whose receiver is the
wrapper itself fails with its named violation, for every property name:
the five traps of the current runtime's `Execution._handler` throw
unconditionally, and every trap of the older iteration's handler throws
when the receiver is a registered wrapper; only the older iteration's
`set` trap with an unregistered receiver delegates to the ordinary
set on that receiver. -/
theorem handlerTrap_rejects_mutation :
    (∀ (trap : MutTrap) (property : String),
      Execution.handlerTrap trap property
        = .error (.runtimeError (violationMsg trap)))
    ∧ (∀ (trap : MutTrap) (property : String),
      Runtime2.handlerTrap trap property true
        = .error (.runtimeError (violationMsg trap))) := by
  constructor
  · intro trap property
    cases trap <;> rfl
  · intro trap property
    cases trap <;> rfl

/-- No blacklisted value is registered in the wrapper registry or
among the created proxies, and every id the allocator may still hand
out is unblacklisted — the invariant the older iteration's run states
satisfy, since its blacklist is a module constant checked before every
registration. -/
def RegistryClean (w : World2) (s : RunState2) : Prop :=
  (∀ k p, alookup s.registry k = some p → w.blacklist k = false)
  ∧ (∀ k t, alookup s.proxyTarget k = some t → w.blacklist k = false)
  ∧ (∀ i, s.nextId ≤ i → w.blacklist i = false)

/-- State inversion for the older iteration's wrap: a successful call
leaves the state unchanged or extends it with one fresh proxy for an
unblacklisted target. -/
theorem maybeWrap2_state_inv (w : World2) (s : RunState2) (v : JSVal) (imm : Bool)
    (r : JSVal) (s2 : RunState2)
    (h : Runtime2.maybeWrap w s v imm = .ok (r, s2)) :
    s2 = s ∨ ∃ o, w.blacklist o = false ∧
      s2 = { registry := (o, s.nextId) :: (s.nextId, s.nextId) :: s.registry,
             proxyTarget := (s.nextId, o) :: s.proxyTarget,
             nextId := s.nextId + 1 } := by
  cases v with
  | obj o0 =>
    simp only [Runtime2.maybeWrap] at h
    cases hreg : alookup s.registry o0 with
    | some p =>
      rw [hreg] at h
      simp only at h
      left
      injection h with h1
      injection h1 with h2 h3
      exact h3.symm
    | none =>
      rw [hreg] at h
      simp only at h
      split at h
      · exact absurd h (by simp)
      · split at h
        · exact absurd h (by simp)
        · split at h
          · left
            injection h with h1
            injection h1 with h2 h3
            exact h3.symm
          · right
            refine ⟨unwrapRead2 s o0, ?_, ?_⟩
            · rename_i hb _ _
              simpa using hb
            · injection h with h1
              injection h1 with h2 h3
              exact h3.symm
  | undef =>
    simp only [Runtime2.maybeWrap] at h
    left
    injection h with h1
    injection h1 with h2 h3
    exact h3.symm
  | nullv =>
    simp only [Runtime2.maybeWrap] at h
    left
    injection h with h1
    injection h1 with h2 h3
    exact h3.symm
  | boolean b =>
    simp only [Runtime2.maybeWrap] at h
    left
    injection h with h1
    injection h1 with h2 h3
    exact h3.symm
  | number n =>
    simp only [Runtime2.maybeWrap] at h
    left
    injection h with h1
    injection h1 with h2 h3
    exact h3.symm
  | string str =>
    simp only [Runtime2.maybeWrap] at h
    left
    injection h with h1
    injection h1 with h2 h3
    exact h3.symm

/-- Claim C2: the blacklist always wins over the whitelist.  In the
current runtime's `Execution._maybeWrap` the blacklist check runs
before the whitelist check and the registry lookup, so wrapping a
blacklisted value fails with the blacklist violation in every state —
whatever its whitelist membership, registration, or reachability.  In
the older iteration's `Runtime._maybeWrap` the registry is consulted
first, but every state its runs reach keeps blacklisted values out of
the registry (third conjunct: the invariant is preserved by every
successful wrap), so wrapping a blacklisted value fails there too. -/
theorem blacklist_always_wins :
    (∀ (w : World) (s : ExecState) (o : Nat) (skip : Bool),
      w.blacklist (unwrapRead s o) = true →
      Execution.maybeWrap w s (.obj o) skip
        = .error (.runtimeError "blacklist violation"))
    ∧ (∀ (w : World2) (s : RunState2) (o : Nat) (imm : Bool),
      RegistryClean w s → w.blacklist o = true →
      Runtime2.maybeWrap w s (.obj o) imm
        = .error (.runtimeError "blacklist violation"))
    ∧ (∀ (w : World2) (s : RunState2) (v : JSVal) (imm : Bool) (r : JSVal)
        (s2 : RunState2),
      RegistryClean w s → Runtime2.maybeWrap w s v imm = .ok (r, s2) →
      RegistryClean w s2) := by
  refine ⟨?_, ?_, ?_⟩
  · intro w s o skip hb
    simp [Execution.maybeWrap, hb]
  · intro w s o imm hclean hb
    have hreg : alookup s.registry o = none := by
      cases hr : alookup s.registry o with
      | none => rfl
      | some p =>
        have := hclean.1 o p hr
        rw [this] at hb
        cases hb
    have hpt : alookup s.proxyTarget o = none := by
      cases hr : alookup s.proxyTarget o with
      | none => rfl
      | some t =>
        have := hclean.2.1 o t hr
        rw [this] at hb
        cases hb
    have hun : unwrapRead2 s o = o := by
      unfold unwrapRead2
      rw [hpt]
    simp [Runtime2.maybeWrap, hreg, hun, hb]
  · intro w s v imm r s2 hclean hok
    rcases maybeWrap2_state_inv w s v imm r s2 hok with rfl | ⟨o, hbo, rfl⟩
    · exact hclean
    · refine ⟨?_, ?_, ?_⟩
      · intro k p hk
        rw [alookup_cons] at hk
        by_cases h1 : o = k
        · rw [← h1]; exact hbo
        · rw [if_neg h1, alookup_cons] at hk
          by_cases h2 : s.nextId = k
          · rw [← h2]; exact hclean.2.2 s.nextId (le_refl _)
          · rw [if_neg h2] at hk
            exact hclean.1 k p hk
      · intro k t hk
        rw [alookup_cons] at hk
        by_cases h2 : s.nextId = k
        · rw [← h2]; exact hclean.2.2 s.nextId (le_refl _)
        · rw [if_neg h2] at hk
          exact hclean.2.1 k t hk
      · intro i hi
        exact hclean.2.2 i (by simpa using Nat.le_of_succ_le hi)

/-- Witness for C2 at concrete states: a blacklisted object wraps to
the blacklist violation under both runtimes, and the invariant holds
after a successful wrap of another object. -/
theorem blacklist_always_wins_witness :
    Execution.maybeWrap ⟨fun _ => true, fun i => i == 0, fun _ => true, fun _ => true⟩
        ⟨[], [], [], 1⟩ (.obj 0) false
      = .error (.runtimeError "blacklist violation")
    ∧ Runtime2.maybeWrap ⟨fun _ => true, fun i => i == 0, fun _ => true, fun _ => true,
          fun _ => true⟩ ⟨[], [], 1⟩ (.obj 0) false
      = .error (.runtimeError "blacklist violation") := by
  constructor
  · exact blacklist_always_wins.1 ⟨fun _ => true, fun i => i == 0, fun _ => true,
      fun _ => true⟩ ⟨[], [], [], 1⟩ 0 false (by decide)
  · exact blacklist_always_wins.2.1 ⟨fun _ => true, fun i => i == 0, fun _ => true,
      fun _ => true, fun _ => true⟩ ⟨[], [], 1⟩ 0 false
      ⟨fun k p hk => by simp [alookup] at hk,
       fun k t hk => by simp [alookup] at hk,
       fun i (hi : 1 ≤ i) => by simp only [beq_eq_false_iff_ne]; omega⟩ (by decide)

/-- Well-formed execution state: every id present in the registry or
proxy tables is below the fresh-id allocator, so newly created proxy
ids never collide with existing objects. -/
def WFState (s : ExecState) : Prop :=
  (∀ k p, alookup s.registry k = some p → k < s.nextId ∧ p < s.nextId)
  ∧ (∀ k t, alookup s.proxyTarget k = some t → k < s.nextId ∧ t < s.nextId)


/-- Re-wrapping after a fresh proxy was just created returns that
proxy and leaves the state unchanged. -/
theorem maybeWrap_after_create (w : World) (s : ExecState) (o : Nat) (skip : Bool)
    (hb : ¬ w.blacklist (unwrapRead s o) = true)
    (hf : ¬ ((w.isFunction (unwrapRead s o) = true
        ∧ unwrapRead s o ∉ s.functions) ∧ w.whitelist (unwrapRead s o) = false))
    (ho : o < s.nextId) (ht : unwrapRead s o < s.nextId) :
    Execution.maybeWrap w
      { s with
        registry := (unwrapRead s o, s.nextId) :: (s.nextId, s.nextId) :: s.registry,
        proxyTarget := (s.nextId, unwrapRead s o) :: s.proxyTarget,
        nextId := s.nextId + 1 } (.obj o) skip
      = .ok (.obj s.nextId,
        { s with
          registry := (unwrapRead s o, s.nextId) :: (s.nextId, s.nextId) :: s.registry,
          proxyTarget := (s.nextId, unwrapRead s o) :: s.proxyTarget,
          nextId := s.nextId + 1 }) := by
  have hu2 : unwrapRead
      { s with
        registry := (unwrapRead s o, s.nextId) :: (s.nextId, s.nextId) :: s.registry,
        proxyTarget := (s.nextId, unwrapRead s o) :: s.proxyTarget,
        nextId := s.nextId + 1 } o = unwrapRead s o := by
    unfold unwrapRead
    show (match alookup ((s.nextId, unwrapRead s o) :: s.proxyTarget) o with
      | some t => t | none => o) = _
    rw [alookup_cons, if_neg (by omega)]
  have hreg2 : alookup
      ((unwrapRead s o, s.nextId) :: (s.nextId, s.nextId) :: s.registry)
      (unwrapRead s o) = some s.nextId := by
    rw [alookup_cons, if_pos rfl]
  simp [Execution.maybeWrap, hu2, hb, hf, hreg2]

/-- Claim C3: wrapping is identity-stable within one execution — when
`wrap(o)` succeeds with result `v` and state `s2`, wrapping `o` again
in `s2` returns the same `v` and the same `s2`, because the registry
maps the underlying value to its wrapper (and the wrapper to itself). -/
theorem wrap_identity_stable (w : World) (s : ExecState) (o : Nat) (skip : Bool)
    (hwf : WFState s) (ho : o < s.nextId) (v : JSVal) (s2 : ExecState)
    (h : Execution.maybeWrap w s (.obj o) skip = .ok (v, s2)) :
    Execution.maybeWrap w s2 (.obj o) skip = .ok (v, s2) := by
  have htlt : unwrapRead s o < s.nextId := by
    unfold unwrapRead
    cases hpt : alookup s.proxyTarget o with
    | some t0 => exact (hwf.2 o t0 hpt).2
    | none => exact ho
  by_cases hb : w.blacklist (unwrapRead s o) = true
  · simp [Execution.maybeWrap, hb] at h
  by_cases hf : (w.isFunction (unwrapRead s o) = true
      ∧ unwrapRead s o ∉ s.functions) ∧ w.whitelist (unwrapRead s o) = false
  · simp [Execution.maybeWrap, hb, hf] at h
  cases hreg : alookup s.registry (unwrapRead s o) with
  | some p =>
    have h2 : Execution.maybeWrap w s (.obj o) skip = .ok (.obj p, s) := by
      simp [Execution.maybeWrap, hb, hf, hreg]
    rw [h2] at h
    simp only [Except.ok.injEq, Prod.mk.injEq] at h
    obtain ⟨hv, hs⟩ := h
    subst hv
    subst hs
    exact h2
  | none =>
    by_cases hpass : skip = false ∧ w.immutable (unwrapRead s o) = false
    · have h2 : Execution.maybeWrap w s (.obj o) skip
          = .ok (.obj (unwrapRead s o), s) := by
        simp [Execution.maybeWrap, hb, hf, hreg, hpass]
      rw [h2] at h
      simp only [Except.ok.injEq, Prod.mk.injEq] at h
      obtain ⟨hv, hs⟩ := h
      subst hv
      subst hs
      exact h2
    · have h2 : Execution.maybeWrap w s (.obj o) skip
          = .ok (.obj s.nextId,
            { s with
              registry := (unwrapRead s o, s.nextId) :: (s.nextId, s.nextId)
                :: s.registry,
              proxyTarget := (s.nextId, unwrapRead s o) :: s.proxyTarget,
              nextId := s.nextId + 1 }) := by
        simp [Execution.maybeWrap, hb, hf, hreg, hpass]
      rw [h2] at h
      simp only [Except.ok.injEq, Prod.mk.injEq] at h
      obtain ⟨hv, hs⟩ := h
      subst hv
      subst hs
      exact maybeWrap_after_create w s o skip hb hf ho htlt

/-- Witness for C3: wrapping a concrete reachable object twice yields
the identical proxy and state. -/
theorem wrap_identity_stable_witness :
    Execution.maybeWrap ⟨fun i => i == 0, fun _ => false, fun _ => false, fun _ => false⟩
        ⟨[], [], [], 1⟩ (.obj 0) false
      = .ok (.obj 1, ⟨[], [(0, 1), (1, 1)], [(1, 0)], 2⟩)
    ∧ Execution.maybeWrap ⟨fun i => i == 0, fun _ => false, fun _ => false, fun _ => false⟩
        ⟨[], [(0, 1), (1, 1)], [(1, 0)], 2⟩ (.obj 0) false
      = .ok (.obj 1, ⟨[], [(0, 1), (1, 1)], [(1, 0)], 2⟩) := by
  have h1 : Execution.maybeWrap ⟨fun i => i == 0, fun _ => false, fun _ => false,
        fun _ => false⟩ ⟨[], [], [], 1⟩ (.obj 0) false
      = .ok (.obj 1, ⟨[], [(0, 1), (1, 1)], [(1, 0)], 2⟩) := by decide
  refine ⟨h1, ?_⟩
  exact wrap_identity_stable _ _ 0 false
    ⟨fun k p hk => by simp [alookup] at hk, fun k t hk => by simp [alookup] at hk⟩
    (by decide) _ _ h1

/-- Counterexample to claim C4 as stated: wrap is not the identity on
every non-reachable value — a function outside the reachability set
that is neither registered nor whitelisted raises a whitelist
violation instead of being returned unchanged. -/
theorem wrap_passthrough_cex :
    (⟨fun _ => false, fun _ => false, fun _ => false, fun i => i == 0⟩
        : World).immutable 0 = false
    ∧ Execution.maybeWrap
        ⟨fun _ => false, fun _ => false, fun _ => false, fun i => i == 0⟩
        ⟨[], [], [], 1⟩ (.obj 0) false
      = .error (.runtimeError "whitelist violation") :=
  ⟨rfl, by decide⟩

/-- Claim C4 (amended): wrap returns its argument unchanged, with no
wrapper created and no state change, for every primitive value, and
for every non-proxy object outside the reachability set that is not
blacklisted, not already in the wrapper registry, and — when it is a
function — registered as a user function or whitelisted.  (A
non-reachable function carrying neither marker instead raises a
whitelist violation, per the counterexample.) -/
theorem wrap_passthrough_amended :
    (∀ (w : World) (s : ExecState) (skip : Bool) (v : JSVal),
      (∀ i, v ≠ .obj i) → Execution.maybeWrap w s v skip = .ok (v, s))
    ∧ (∀ (w : World) (s : ExecState) (o : Nat),
      alookup s.proxyTarget o = none →
      w.blacklist o = false →
      (w.isFunction o = true → o ∈ s.functions ∨ w.whitelist o = true) →
      alookup s.registry o = none →
      w.immutable o = false →
      Execution.maybeWrap w s (.obj o) false = .ok (.obj o, s)) := by
  constructor
  · intro w s skip v hv
    cases v with
    | obj i => exact absurd rfl (hv i)
    | undef => rfl
    | nullv => rfl
    | boolean b => rfl
    | number n => rfl
    | string str => rfl
  · intro w s o hpt hb hfw hreg himm
    have hun : unwrapRead s o = o := by
      unfold unwrapRead
      rw [hpt]
    have hf : ¬ ((w.isFunction o = true ∧ o ∉ s.functions)
        ∧ w.whitelist o = false) := by
      rintro ⟨⟨hif, hnm⟩, hwl⟩
      rcases hfw hif with hm | hw
      · exact hnm hm
      · rw [hw] at hwl
        cases hwl
    simp [Execution.maybeWrap, hun, hb, hf, hreg, himm]

/-- Witness for C4 (amended) at a primitive and at a concrete
non-reachable object. -/
theorem wrap_passthrough_witness :
    Execution.maybeWrap ⟨fun _ => false, fun _ => false, fun _ => false, fun _ => false⟩
        ⟨[], [], [], 4⟩ (.number 7) true = .ok (.number 7, ⟨[], [], [], 4⟩)
    ∧ Execution.maybeWrap ⟨fun _ => false, fun _ => false, fun _ => false, fun _ => false⟩
        ⟨[], [], [], 4⟩ (.obj 3) false = .ok (.obj 3, ⟨[], [], [], 4⟩) :=
  ⟨wrap_passthrough_amended.1 _ _ true (.number 7) (fun i h => JSVal.noConfusion h),
   wrap_passthrough_amended.2 ⟨fun _ => false, fun _ => false, fun _ => false,
      fun _ => false⟩ ⟨[], [], [], 4⟩ 3 (by decide) (by decide)
      (fun hif => by cases hif) (by decide) (by decide)⟩

/-! ## Runtime.prepare — sourcemap patching and the inline annotation

`Runtime.prepare` copies an unprepared transpiled unit with
`Object.assign`, marks the copy with the `PREPARED` symbol, patches the
copied sourcemap for the lines the Function constructor inserts, and
appends the inline sourcemap annotation to the copied code when it is
not oversized.  Mutation is made observable by modelling transpiled
units as heap objects addressed by id. -/

/-- A version-labelled sourcemap as carried by a transpiled unit. -/
structure SMap3 where
  version : Nat
  sources : List String
  names : List String
  mappings : String
deriving DecidableEq

/-- `SourceMap.patchMapForFunctionWrapper`: prepend one semicolon to
`mappings` for each of the `offset` lines the host's Function
constructor inserts before the code. -/
def patchMapForFunctionWrapper (offset : Nat) (m : SMap3) : SMap3 :=
  { m with mappings := String.mk (List.replicate offset ';') ++ m.mappings }

/-- The UTF-8 bytes of a character (the byte sequence the base-64
serialization consumes; the JSON payload here is ASCII). -/
def utf8Bytes (c : Char) : List Nat :=
  let n := c.toNat
  if n < 128 then [n]
  else if n < 2048 then [192 + n / 64, 128 + n % 64]
  else if n < 65536 then [224 + n / 4096, 128 + n / 64 % 64, 128 + n % 64]
  else [240 + n / 262144, 128 + n / 4096 % 64, 128 + n / 64 % 64, 128 + n % 64]

/-- The bytes of a string. -/
def strBytes (s : String) : List Nat :=
  (s.data.map utf8Bytes).flatten

/-- Standard base-64 of a byte list, with padding. -/
def base64encodeChunks : List Nat → List Char
  | [] => []
  | [a] => [digitChar (a / 4), digitChar (a % 4 * 16), '=', '=']
  | [a, b] => [digitChar (a / 4), digitChar (a % 4 * 16 + b / 16),
               digitChar (b % 16 * 4), '=']
  | a :: b :: c :: rest =>
    digitChar (a / 4) :: digitChar (a % 4 * 16 + b / 16)
      :: digitChar (b % 16 * 4 + c / 64) :: digitChar (c % 64)
      :: base64encodeChunks rest

/-- `btoa` of the serialized map text. -/
def btoaStr (s : String) : String :=
  String.mk (base64encodeChunks (strBytes s))

/-- JSON string escaping for the quote and backslash (the only
characters needing escapes in the base64/identifier content of a
sourcemap). -/
def jsonEscape (s : String) : String :=
  String.mk ((s.data.map fun c =>
    if c == '"' then ['\\', '"']
    else if c == '\\' then ['\\', '\\']
    else [c]).flatten)

/-- A JSON string literal. -/
def jsonStr (s : String) : String :=
  "\"" ++ jsonEscape s ++ "\""

/-- A JSON array of strings. -/
def jsonArr (l : List String) : String :=
  "[" ++ String.intercalate "," (l.map jsonStr) ++ "]"

/-- `JSON.stringify` of the patched map object. -/
def jsonOfMap (m : SMap3) : String :=
  "\x7b\"version\":" ++ toString m.version
    ++ ",\"sources\":" ++ jsonArr m.sources
    ++ ",\"names\":" ++ jsonArr m.names
    ++ ",\"mappings\":" ++ jsonStr m.mappings ++ "\x7d"

/-- `SourceMap.createInline`: the inline sourcemap annotation, a
trailing comment carrying the map as a base-64 data URL. -/
def createInline (m : SMap3) : String :=
  "//# sourceMappingURL=data:application/json;charset=utf-8;base64,"
    ++ btoaStr (jsonOfMap m)

/-- A transpiled unit as seen by the current runtime: generated code,
optional sourcemap, and the `PREPARED` mark. -/
structure Transpiled1 where
  code : String
  map : Option SMap3
  prepared : Bool
deriving DecidableEq

/-- The code and map of the fresh prepared copy: when a version-3 map
is present, its `sources` becomes `['proxy-script']`, its mappings are
patched for the Function-constructor offset, and the inline annotation
is appended to the code unless it reaches the 2^23 size bound (then it
is skipped with a console warning). -/
def prepareCopy (offset : Nat) (code : String) (map : Option SMap3) :
    String × Option SMap3 :=
  match map with
  | some m =>
    if m.version == 3 then
      let m2 := patchMapForFunctionWrapper offset { m with sources := ["proxy-script"] }
      let inline := createInline m2
      if inline.length < 2 ^ 23 then (code ++ "\n" ++ inline, some m2)
      else (code, some m2)
    else (code, some m)
  | none => (code, none)

/-- Heap lookup for transpiled units. -/
def hlookup (h : List (Nat × Transpiled1)) (i : Nat) : Option Transpiled1 :=
  alookup h i

/-- `Runtime.prepare` over an explicit heap of transpiled units: an
already-prepared argument is returned as is; otherwise a fresh object
(id `fresh`) is allocated carrying the prepared mark, the patched map
and the extended code, and the argument object is left untouched.
`none` models the type error of reading a property of a missing
argument. -/
def Runtime.prepare (offset : Nat) (h : List (Nat × Transpiled1)) (i fresh : Nat) :
    Option (List (Nat × Transpiled1) × Nat) :=
  match hlookup h i with
  | none => none
  | some t =>
    if t.prepared then some (h, i)
    else
      let cm := prepareCopy offset t.code t.map
      some ((fresh, { code := cm.1, map := cm.2, prepared := true }) :: h, fresh)

/-- Claim C7: preparation is idempotent — whatever `Runtime.prepare`
returns, preparing that result again returns the identical heap and
the identical unit, so no second inline annotation is ever appended. -/
theorem prepare_idempotent (offset : Nat) (h : List (Nat × Transpiled1))
    (i fresh fresh2 : Nat) (h1 : List (Nat × Transpiled1)) (i1 : Nat)
    (hp : Runtime.prepare offset h i fresh = some (h1, i1)) :
    Runtime.prepare offset h1 i1 fresh2 = some (h1, i1) := by
  unfold Runtime.prepare at hp
  cases hl : hlookup h i with
  | none =>
    rw [hl] at hp
    cases hp
  | some t =>
    rw [hl] at hp
    dsimp only at hp
    by_cases hprep : t.prepared = true
    · rw [if_pos hprep] at hp
      simp only [Option.some.injEq, Prod.mk.injEq] at hp
      obtain ⟨rfl, rfl⟩ := hp
      unfold Runtime.prepare
      rw [hl]
      dsimp only
      rw [if_pos hprep]
    · rw [if_neg hprep] at hp
      simp only [Option.some.injEq, Prod.mk.injEq] at hp
      obtain ⟨rfl, rfl⟩ := hp
      unfold Runtime.prepare
      have hl2 : hlookup ((fresh,
          { code := (prepareCopy offset t.code t.map).1,
            map := (prepareCopy offset t.code t.map).2,
            prepared := true }) :: h) fresh
          = some { code := (prepareCopy offset t.code t.map).1,
                   map := (prepareCopy offset t.code t.map).2,
                   prepared := true } := by
        unfold hlookup
        rw [alookup_cons, if_pos rfl]
      rw [hl2]
      dsimp only
      rw [if_pos rfl]

/-- Witness for C7: preparing a concrete unprepared unit and preparing
the result again returns the same heap and unit. -/
theorem prepare_idempotent_witness :
    Runtime.prepare 2
        [(1, ⟨"return 42;", none, true⟩), (0, ⟨"return 42;", none, false⟩)] 1 2
      = some ([(1, ⟨"return 42;", none, true⟩), (0, ⟨"return 42;", none, false⟩)], 1) :=
  prepare_idempotent 2 [(0, ⟨"return 42;", none, false⟩)] 0 1 2
    [(1, ⟨"return 42;", none, true⟩), (0, ⟨"return 42;", none, false⟩)] 1 (by decide)

/-- Claim C10: `Runtime.prepare` never mutates its argument — after a
successful prepare, the heap object the argument id denotes still holds
exactly the original code string, map and (absent) prepared mark; the
prepared copy lives only at the fresh id. -/
theorem prepare_preserves_argument (offset : Nat) (h : List (Nat × Transpiled1))
    (i fresh : Nat) (t : Transpiled1) (h1 : List (Nat × Transpiled1)) (i1 : Nat)
    (hi : hlookup h i = some t) (hfresh : hlookup h fresh = none)
    (hp : Runtime.prepare offset h i fresh = some (h1, i1)) :
    hlookup h1 i = some t := by
  unfold Runtime.prepare at hp
  rw [hi] at hp
  dsimp only at hp
  by_cases hprep : t.prepared = true
  · rw [if_pos hprep] at hp
    simp only [Option.some.injEq, Prod.mk.injEq] at hp
    obtain ⟨rfl, rfl⟩ := hp
    exact hi
  · rw [if_neg hprep] at hp
    simp only [Option.some.injEq, Prod.mk.injEq] at hp
    obtain ⟨rfl, rfl⟩ := hp
    have hne : fresh ≠ i := by
      intro hcon
      rw [hcon, hi] at hfresh
      cases hfresh
    unfold hlookup
    rw [alookup_cons, if_neg hne]
    exact hi

/-- Witness for C10: the argument object of a concrete prepare call is
unchanged in the resulting heap. -/
theorem prepare_preserves_argument_witness :
    hlookup [(1, ⟨"return 42;", none, true⟩), (0, ⟨"return 42;", none, false⟩)] 0
      = some ⟨"return 42;", none, false⟩ :=
  prepare_preserves_argument 2 [(0, ⟨"return 42;", none, false⟩)] 0 1
    ⟨"return 42;", none, false⟩
    [(1, ⟨"return 42;", none, true⟩), (0, ⟨"return 42;", none, false⟩)] 1
    (by decide) (by decide) (by decide)

/-! ## Whitelist mutability around run (claim C5)

The runtime whitelist is a JavaScript `Set`.  The `part_001` iteration
of `Runtime.run` replaces `whitelist.add` with a function that throws
a plain `Error` before executing; the current `Runtime.run`
(src/src/Runtime.js) only prepares the unit, constructs an `Execution`
and runs it — no statement writes `this.whitelist` or replaces its
methods.  The model records whether `add` has been replaced. -/

/-- The runtime whitelist: its members and whether its `add` method has
been replaced with the throwing function. -/
structure WhitelistSet where
  elems : List Nat
  addThrows : Bool
deriving DecidableEq

/-- `whitelist.add(f)`: throws if the method was replaced, otherwise
inserts (a `Set` ignores duplicates). -/
def WhitelistSet.add (s : WhitelistSet) (f : Nat) : Except JSException WhitelistSet :=
  if s.addThrows then .error (.error "whitelist modification after run")
  else .ok { s with elems := if s.elems.contains f then s.elems else s.elems ++ [f] }

/-- The effect of the current `Runtime.run` on the whitelist: none. -/
def Runtime.runWhitelistEffect (s : WhitelistSet) : WhitelistSet := s

/-- The effect of the `part_001` iteration's `run` on the whitelist:
`this.whitelist.add` is replaced with a function that throws. -/
def part001.runWhitelistEffect (s : WhitelistSet) : WhitelistSet :=
  { s with addThrows := true }

/-- Counterexample to claim C5 as stated: under the current
`Runtime.run`, mutating the whitelist after a run has started does not
raise — the add is silently applied. -/
theorem whitelist_mutation_after_run_cex :
    (Runtime.runWhitelistEffect ⟨[], false⟩).add 5 = .ok ⟨[5], false⟩ := rfl

/-- Claim C5 (amended): only the `part_001` iteration enforces
whitelist immutability, and only for `add`: after its run has started,
every `whitelist.add` raises a plain error; before the first run,
host mutation succeeds.  The current `Runtime.run` leaves the
whitelist untouched, so mutation after a run has started still
succeeds silently. -/
theorem whitelist_immutable_after_run_amended :
    (∀ (s : WhitelistSet) (f : Nat),
      (part001.runWhitelistEffect s).add f
        = .error (.error "whitelist modification after run"))
    ∧ (∀ (s : WhitelistSet) (f : Nat), s.addThrows = false →
      s.add f = .ok { s with elems :=
        (if s.elems.contains f then s.elems else s.elems ++ [f]) })
    ∧ (∀ (s : WhitelistSet) (f : Nat), s.addThrows = false →
      (Runtime.runWhitelistEffect s).add f = .ok { s with elems :=
        (if s.elems.contains f then s.elems else s.elems ++ [f]) }) := by
  refine ⟨?_, ?_, ?_⟩
  · intro s f
    rfl
  · intro s f hs
    unfold WhitelistSet.add
    rw [hs]
    rfl
  · intro s f hs
    unfold Runtime.runWhitelistEffect WhitelistSet.add
    rw [hs]
    rfl

/-- Witness for C5 (amended) at a concrete whitelist. -/
theorem whitelist_immutable_after_run_witness :
    (part001.runWhitelistEffect ⟨[3], false⟩).add 5
      = .error (.error "whitelist modification after run")
    ∧ WhitelistSet.add ⟨[3], false⟩ 5 = .ok ⟨[3, 5], false⟩
    ∧ (Runtime.runWhitelistEffect ⟨[3], false⟩).add 5 = .ok ⟨[3, 5], false⟩ :=
  ⟨whitelist_immutable_after_run_amended.1 ⟨[3], false⟩ 5,
   whitelist_immutable_after_run_amended.2.1 ⟨[3], false⟩ 5 rfl,
   whitelist_immutable_after_run_amended.2.2 ⟨[3], false⟩ 5 rfl⟩

/-! ## The older iteration's run and its externals check (claim C6) -/

/-- A transpiled unit as seen by the older iteration's `run`: generated
code, the recorded external names (the keys of `transpiled.externals`),
an optional sourcemap and the prepared mark. -/
structure Transpiled2 where
  code : String
  externalsKeys : List String
  map : Option SMap3
  prepared : Bool
deriving DecidableEq

/-- `Runtime._prepare` of the older iteration (value semantics; the
computation is that of `Runtime.prepare`). -/
def Runtime2.prepare (offset : Nat) (t : Transpiled2) : Transpiled2 :=
  if t.prepared then t
  else
    let cm := prepareCopy offset t.code t.map
    { t with code := cm.1, map := cm.2, prepared := true }

/-- The externals coverage loop at the top of the older iteration's
`run`: the first recorded external name absent from the provided keys
raises the named "not provided" runtime error. -/
def checkExternals (required : List String) (provided : List String) :
    Except JSException Unit :=
  match required with
  | [] => .ok ()
  | k :: rest =>
    if provided.contains k then checkExternals rest provided
    else .error (.runtimeError ("'" ++ k ++ "' not provided"))

/-- The older iteration's `Runtime.run` with the evaluation of the
instrumented code abstracted as `evalCode` (the `new Function` call
and everything after it): prepare, check the externals, then evaluate. -/
def Runtime2.run {β : Type} (offset : Nat) (t : Transpiled2)
    (provided : List String)
    (evalCode : Transpiled2 → Except JSException β) : Except JSException β :=
  let tp := Runtime2.prepare offset t
  match checkExternals tp.externalsKeys provided with
  | .error e => .error e
  | .ok _ => evalCode tp

theorem prepare2_externalsKeys (offset : Nat) (t : Transpiled2) :
    (Runtime2.prepare offset t).externalsKeys = t.externalsKeys := by
  unfold Runtime2.prepare
  split <;> rfl

theorem checkExternals_find (required provided : List String) :
    checkExternals required provided
      = match required.find? (fun k => !(provided.contains k)) with
        | some m => .error (.runtimeError ("'" ++ m ++ "' not provided"))
        | none => .ok () := by
  induction required with
  | nil => rfl
  | cons k rest ih =>
    unfold checkExternals
    cases hk : provided.contains k with
    | true =>
      rw [ih]
      have : (rest.find? (fun k => !(provided.contains k)))
          = ((k :: rest).find? (fun k => !(provided.contains k))) := by
        rw [List.find?_cons]
        rw [hk]
        rfl
      rw [this]
      simp [hk]
    | false =>
      have : ((k :: rest).find? (fun k => !(provided.contains k))) = some k := by
        rw [List.find?_cons]
        rw [hk]
        rfl
      rw [this]
      simp [hk]

/-- Claim C6: when the supplied externals do not cover every name the
transpiled unit records, `run` fails with the explicit `'<name>' not
provided` runtime error for the first uncovered name, and it does so
for every possible evaluation of the instrumented code — the failure
happens before any instrumented code runs. -/
theorem run_missing_external (offset : Nat) (t : Transpiled2)
    (provided : List String) (m : String)
    (hm : t.externalsKeys.find? (fun k => !(provided.contains k)) = some m) :
    ∀ (β : Type) (evalCode : Transpiled2 → Except JSException β),
      Runtime2.run offset t provided evalCode
        = .error (.runtimeError ("'" ++ m ++ "' not provided")) := by
  intro β evalCode
  unfold Runtime2.run
  dsimp only
  rw [checkExternals_find, prepare2_externalsKeys, hm]

/-- Witness for C6: with external `b` missing, two runs whose abstract
evaluations differ observably both fail with the same "not provided"
error, so no instrumented code ran. -/
theorem run_missing_external_witness :
    Runtime2.run 2 ⟨"return a + b;", ["a", "b"], none, false⟩ ["a"]
        (fun _ => Except.ok (0 : Nat))
      = .error (.runtimeError ("'" ++ "b" ++ "' not provided"))
    ∧ Runtime2.run 2 ⟨"return a + b;", ["a", "b"], none, false⟩ ["a"]
        (fun _ => (Except.error (.error "instrumented code ran") : Except JSException Nat))
      = .error (.runtimeError ("'" ++ "b" ++ "' not provided")) :=
  ⟨run_missing_external 2 ⟨"return a + b;", ["a", "b"], none, false⟩ ["a"] "b"
      (by decide) Nat (fun _ => Except.ok 0),
   run_missing_external 2 ⟨"return a + b;", ["a", "b"], none, false⟩ ["a"] "b"
      (by decide) Nat (fun _ => Except.error (.error "instrumented code ran"))⟩
